import Mathlib

/-!
Shallow embedding of the image-upload batch client (`src/main.rs`).

The program walks the `IMAGES` directory, keeps files with a recognized
image extension, base64-encodes each file, POSTs it to a hardcoded HTTP
endpoint and appends `(path, response)` rows to a CSV log, processing at
most 10 images concurrently.

Pure functions of the source (`is_image`, `encode_image`'s base64 step,
the URL validation performed by the HTTP client, the JSON round through
`serde_json`) are translated into executable Lean definitions; the
effectful parts (filesystem walk, network transport, CSV writes) become
an explicit environment record, and `main`'s orchestration becomes a
pure function of that environment.  Library behaviour that the source
relies on (Rust `Path::extension`, the `base64` crate's STANDARD engine,
the `url` crate's host parsing, `serde_json` parsing/serialization) is
modelled from the libraries' documented semantics, as noted on each
definition.
-/

/- ===================== Path extension semantics ===================== -/

/-- Recognized image extensions; source: the `extensions` array in
`is_image` (`main.rs`). -/
def imageExts : List String := ["jpg", "jpeg", "png", "gif", "bmp"]

/-- Index of the last occurrence of `'.'` in `cs`, if any.  Models the
`rposition` search used by Rust's `Path::extension`. -/
def lastDotIdx (cs : List Char) : Option Nat :=
  match cs.reverse.findIdx? (fun c => c = '.') with
  | some k => some (cs.length - 1 - k)
  | none => none

/-- Extension of a file *name*, with Rust `Path::extension` semantics
(modelled from `std::path::split_file_at_dot`): the portion after the
last `'.'` that does not start the name; a name with no dot past the
first character — e.g. the dotfile `".png"` — has no extension, and the
special name `".."` has none either. -/
def rustExtOfName (name : String) : Option String :=
  let cs := name.data
  if cs = ['.', '.'] then none
  else
    match lastDotIdx (cs.drop 1) with
    | none => none
    | some i => some ⟨cs.drop (i + 2)⟩

/-- A path is modelled as its list of normal components; the file name is
the last component (none for a path ending in `".."`, as in Rust). -/
def fileName (path : List String) : Option String :=
  match path.getLast? with
  | some s => if s = ".." then none else some s
  | none => none

/-- `Path::extension` lifted to whole paths. -/
def pathExt (path : List String) : Option String :=
  (fileName path).bind rustExtOfName

/-- ASCII lowercasing, as `str::to_lowercase` behaves on the characters
relevant to the extension comparison. -/
def asciiLower (s : String) : String := ⟨s.data.map Char.toLower⟩

/-- Source: `is_image` (`main.rs`): the lowercased extension must be one
of the recognized image extensions; a path with no extension is not an
image. -/
def is_image (path : List String) : Bool :=
  match pathExt path with
  | some ext => imageExts.contains (asciiLower ext)
  | none => false

/- ===================== Base64 (STANDARD engine) ===================== -/

/-- The standard base64 alphabet (RFC 4648), as used by
`base64::engine::general_purpose::STANDARD` in `encode_image`. -/
def b64Alphabet : List Char :=
  "ABCDEFGHIJKLMNOPQRSTUVWXYZabcdefghijklmnopqrstuvwxyz0123456789+/".data

/-- Character for a 6-bit value. -/
def b64Char (n : Nat) : Char := b64Alphabet.getD n 'A'

/-- First index of `c` in a character list. -/
def charIdx (c : Char) : List Char → Option Nat
  | [] => none
  | d :: ds => if d = c then some 0 else (charIdx c ds).map (· + 1)

/-- 6-bit value of a base64 character, `none` for characters outside the
alphabet (in particular for `'='`). -/
def b64Index (c : Char) : Option Nat := charIdx c b64Alphabet

/-- Standard base64 encoding with padding of a byte sequence, as produced
by `STANDARD.encode` in `encode_image` (`main.rs`). -/
def encodeB64 : List Nat → List Char
  | [] => []
  | [b1] => [b64Char (b1 / 4), b64Char (b1 % 4 * 16), '=', '=']
  | [b1, b2] =>
      [b64Char (b1 / 4), b64Char (b1 % 4 * 16 + b2 / 16), b64Char (b2 % 16 * 4), '=']
  | b1 :: b2 :: b3 :: rest =>
      b64Char (b1 / 4) :: b64Char (b1 % 4 * 16 + b2 / 16) ::
      b64Char (b2 % 16 * 4 + b3 / 64) :: b64Char (b3 % 64) :: encodeB64 rest

/-- Standard base64 decoding, modelled from the `base64` crate's
`STANDARD` engine: requires canonical padding, rejects characters
outside the alphabet and non-zero trailing bits. -/
def decodeB64 : List Char → Option (List Nat)
  | [] => some []
  | c1 :: c2 :: c3 :: c4 :: rest =>
    if c3 = '=' then
      if c4 = '=' ∧ rest = [] then
        match b64Index c1, b64Index c2 with
        | some s1, some s2 =>
            if s2 % 16 = 0 then some [s1 * 4 + s2 / 16] else none
        | _, _ => none
      else none
    else if c4 = '=' then
      if rest = [] then
        match b64Index c1, b64Index c2, b64Index c3 with
        | some s1, some s2, some s3 =>
            if s3 % 4 = 0 then
              some [s1 * 4 + s2 / 16, s2 % 16 * 16 + s3 / 4]
            else none
        | _, _, _ => none
      else none
    else
      match b64Index c1, b64Index c2, b64Index c3, b64Index c4, decodeB64 rest with
      | some s1, some s2, some s3, some s4, some bs =>
          some ((s1 * 4 + s2 / 16) :: (s2 % 16 * 16 + s3 / 4) :: (s3 % 4 * 64 + s4) :: bs)
      | _, _, _, _, _ => none
  | _ => none

/- ===================== JSON (serde_json model) ===================== -/

/-- JSON values, as `serde_json::Value` with objects kept as key-sorted
association lists (serde_json's default map is a `BTreeMap`, so keys are
ordered and duplicates collapse).  Numbers are modelled as integers; the
floating-point forms are outside the scope of this embedding. -/
inductive Json where
  | null : Json
  | bool (b : Bool) : Json
  | num (n : Int) : Json
  | str (s : String) : Json
  | arr (xs : List Json) : Json
  | obj (kvs : List (String × Json)) : Json

/-- Hexadecimal digit character. -/
def hexDigit (n : Nat) : Char := "0123456789abcdef".data.getD n '0'

/-- JSON string escaping as `serde_json` serializes: quote, backslash and
control characters are escaped, everything else is passed through. -/
def escapeChar (c : Char) : List Char :=
  if c = '"' then ['\\', '"']
  else if c = '\\' then ['\\', '\\']
  else if c = '\n' then ['\\', 'n']
  else if c = '\t' then ['\\', 't']
  else if c = '\r' then ['\\', 'r']
  else if c.toNat = 8 then ['\\', 'b']
  else if c.toNat = 12 then ['\\', 'f']
  else if c.toNat < 32 then
    ['\\', 'u', '0', '0', hexDigit (c.toNat / 16), hexDigit (c.toNat % 16)]
  else [c]

/-- Escape a whole string for JSON output. -/
def escapeString (s : String) : String := ⟨s.data.flatMap escapeChar⟩

-- Compact serialization, as `serde_json::Value::to_string()` produces
-- it: no insignificant whitespace, object keys in map order.
mutual

/-- Compact serialization of one JSON value (`Value::to_string()`). -/
def jsonToString : Json → String
  | .null => "null"
  | .bool true => "true"
  | .bool false => "false"
  | .num n => toString n
  | .str s => "\"" ++ escapeString s ++ "\""
  | .arr xs => "[" ++ jsonItemsToString xs ++ "]"
  | .obj kvs => "\x7b" ++ jsonMembersToString kvs ++ "\x7d"

/-- Comma-separated serialization of array items. -/
def jsonItemsToString : List Json → String
  | [] => ""
  | [x] => jsonToString x
  | x :: y :: xs => jsonToString x ++ "," ++ jsonItemsToString (y :: xs)

/-- Comma-separated serialization of object members. -/
def jsonMembersToString : List (String × Json) → String
  | [] => ""
  | [(k, v)] => "\"" ++ escapeString k ++ "\":" ++ jsonToString v
  | (k, v) :: m :: kvs =>
      "\"" ++ escapeString k ++ "\":" ++ jsonToString v ++ "," ++
      jsonMembersToString (m :: kvs)
end

/-- Lexicographic order on character lists, by scalar value. -/
def charListLt : List Char → List Char → Bool
  | [], [] => false
  | [], _ :: _ => true
  | _ :: _, [] => false
  | c :: cs, d :: ds =>
      if c.toNat < d.toNat then true
      else if d.toNat < c.toNat then false
      else charListLt cs ds

/-- String order used by `BTreeMap<String, _>` (byte-wise comparison,
which on valid UTF-8 agrees with the code-point order used here). -/
def strLt (a b : String) : Bool := charListLt a.data b.data

/-- Insert into a key-sorted association list.  An already present key
keeps the value already in the list: the parser inserts earlier members
into the map of the members that followed them, which realizes
serde_json's last-occurrence-wins semantics for duplicate keys. -/
def objInsert (k : String) (v : Json) : List (String × Json) → List (String × Json)
  | [] => [(k, v)]
  | (k2, v2) :: rest =>
    if strLt k k2 then (k, v) :: (k2, v2) :: rest
    else if k = k2 then (k2, v2) :: rest
    else (k2, v2) :: objInsert k v rest

/-- JSON whitespace skipping (space, tab, newline, carriage return). -/
def skipWs : List Char → List Char
  | c :: cs =>
      if c = ' ' ∨ c = '\n' ∨ c = '\t' ∨ c = '\r' then skipWs cs else c :: cs
  | [] => []

/-- Numeric value of a digit run. -/
def digitsVal (ds : List Char) : Nat :=
  ds.foldl (fun a c => a * 10 + (c.toNat - 48)) 0

/-- Does the remainder start a fraction or exponent (a float literal)? -/
def startsFracExp (cs : List Char) : Bool :=
  match cs with
  | c :: _ => c = '.' ∨ c = 'e' ∨ c = 'E'
  | [] => false

/-- Digit runs acceptable as a JSON integer literal: nonempty and without
a redundant leading zero. -/
def intDigitsOk (ds : List Char) : Bool :=
  match ds with
  | [] => false
  | ['0'] => true
  | c :: _ => decide (c ≠ '0')

/-- Body of a JSON string literal after the opening quote, as serde_json
lexes it: plain characters up to the closing quote, backslash escapes
for quote/backslash/slash/n/t/r/b/f, raw control characters rejected.
(The `\uXXXX` escape is outside the scope of this embedding.) -/
def parseStringBody : List Char → Option (String × List Char)
  | [] => none
  | '"' :: rest => some ("", rest)
  | '\\' :: e :: rest =>
      match (match e with
             | '"' => some '"'
             | '\\' => some '\\'
             | '/' => some '/'
             | 'n' => some '\n'
             | 't' => some '\t'
             | 'r' => some '\r'
             | 'b' => some (Char.ofNat 8)
             | 'f' => some (Char.ofNat 12)
             | _ => (none : Option Char)) with
      | none => none
      | some ec =>
        match parseStringBody rest with
        | some (s, r) => some (⟨ec :: s.data⟩, r)
        | none => none
  | c :: rest =>
      if c.toNat < 32 then none
      else
        match parseStringBody rest with
        | some (s, r) => some (⟨c :: s.data⟩, r)
        | none => none

-- Recursive-descent JSON parser (fuelled), modelled from serde_json's
-- grammar restricted to integer numbers and backslash-u-free strings.
mutual

/-- Parse one JSON value; returns it with the unconsumed remainder. -/
def parseValue : Nat → List Char → Option (Json × List Char)
  | 0, _ => none
  | Nat.succ fuel, cs =>
    match skipWs cs with
    | 'n' :: 'u' :: 'l' :: 'l' :: rest => some (.null, rest)
    | 't' :: 'r' :: 'u' :: 'e' :: rest => some (.bool true, rest)
    | 'f' :: 'a' :: 'l' :: 's' :: 'e' :: rest => some (.bool false, rest)
    | '"' :: rest => (parseStringBody rest).map fun sr => (.str sr.1, sr.2)
    | '[' :: rest =>
        (match skipWs rest with
         | ']' :: r => some (.arr [], r)
         | cs2 => (parseItems fuel cs2).map fun xr => (.arr xr.1, xr.2))
    | '\x7b' :: rest =>
        (match skipWs rest with
         | '\x7d' :: r => some (.obj [], r)
         | cs2 => (parseMembers fuel cs2).map fun mr => (.obj mr.1, mr.2))
    | '-' :: rest =>
        (match rest.span Char.isDigit with
         | (ds, r) =>
           if intDigitsOk ds ∧ ¬ startsFracExp r then
             some (.num (-(digitsVal ds : Int)), r)
           else none)
    | c :: rest =>
        if c.isDigit then
          match (c :: rest).span Char.isDigit with
          | (ds, r) =>
            if intDigitsOk ds ∧ ¬ startsFracExp r then
              some (.num (digitsVal ds : Int), r)
            else none
        else none
    | [] => none

/-- Parse the items of a non-empty array up to the closing bracket. -/
def parseItems : Nat → List Char → Option (List Json × List Char)
  | 0, _ => none
  | Nat.succ fuel, cs =>
    (parseValue fuel cs).bind fun vr =>
      match skipWs vr.2 with
      | ',' :: r2 => (parseItems fuel r2).map fun xr => (vr.1 :: xr.1, xr.2)
      | ']' :: r2 => some ([vr.1], r2)
      | _ => none

/-- Parse the members of a non-empty object up to the closing brace. -/
def parseMembers : Nat → List Char → Option (List (String × Json) × List Char)
  | 0, _ => none
  | Nat.succ fuel, cs =>
    match skipWs cs with
    | '"' :: rest =>
      (parseStringBody rest).bind fun kr =>
        match skipWs kr.2 with
        | ':' :: r2 =>
          (parseValue fuel r2).bind fun vr =>
            match skipWs vr.2 with
            | ',' :: r4 =>
                (parseMembers fuel r4).map fun mr =>
                  (objInsert kr.1 vr.1 mr.1, mr.2)
            | '\x7d' :: r4 => some ([(kr.1, vr.1)], r4)
            | _ => none
        | _ => none
    | _ => none
end

/-- Parse a complete JSON document, as `Response::json::<Value>()` does:
one value, with only whitespace allowed around it. -/
def parseJson (s : String) : Option Json :=
  match parseValue (s.length + 1) s.data with
  | some (v, rest) => if skipWs rest = [] then some v else none
  | none => none

/- ===================== URL host validation (url crate) ===================== -/

/-- Skip up to and including the first `"://"`, as the scheme separator
of the URLs handled here. -/
def afterScheme : List Char → Option (List Char)
  | ':' :: '/' :: '/' :: rest => some rest
  | _ :: rest => afterScheme rest
  | [] => none

/-- Take characters until one of the authority terminators. -/
def takeHost : List Char → List Char
  | [] => []
  | c :: cs =>
      if c = ':' ∨ c = '/' ∨ c = '?' ∨ c = '#' then []
      else c :: takeHost cs

/-- The host portion of an absolute URL. -/
def urlHost (u : String) : Option String :=
  (afterScheme u.data).map fun rest => ⟨takeHost rest⟩

/-- Split on `'.'` (keeping empty segments). -/
def splitDots : List Char → List (List Char)
  | [] => [[]]
  | c :: cs =>
      let r := splitDots cs
      if c = '.' then [] :: r
      else
        match r with
        | h :: t => (c :: h) :: t
        | [] => [[c]]

/-- A nonempty run of ASCII digits. -/
def isNumPart (p : List Char) : Bool := decide (p ≠ []) && p.all Char.isDigit

/-- Value of a decimal digit run. -/
def partVal (p : List Char) : Nat := p.foldl (fun a c => a * 10 + (c.toNat - 48)) 0

/-- WHATWG IPv4 parsing on the dot-separated parts of a host, as the
`url` crate implements it (restricted to decimal parts): at most four
parts, every part a nonempty digit run — an empty label fails — with the
leading parts at most 255 and the last below `256 ^ (5 - n)`. -/
def ipv4Ok (parts : List (List Char)) : Bool :=
  decide (parts.length ≤ 4) && decide (parts ≠ []) && parts.all isNumPart &&
  parts.dropLast.all (fun p => decide (partVal p ≤ 255)) &&
  (match parts.getLast? with
   | some last => decide (partVal last < 256 ^ (5 - parts.length))
   | none => false)

/-- Host validity, modelled from the WHATWG host parser the `url` crate
implements: a host whose final dot-separated label is numeric must parse
as an IPv4 address; other (domain-style) hosts are accepted here, their
further validation being out of this model's scope. -/
def hostValid (host : String) : Bool :=
  let parts := splitDots host.data
  let parts2 :=
    match parts.getLast? with
    | some [] => parts.dropLast
    | _ => parts
  match parts2.getLast? with
  | none => false
  | some last => if isNumPart last then ipv4Ok parts2 else true

/-- Client-side URL validity as `reqwest`/`url` judge it for the http
URLs in scope: scheme separator present and host nonempty and valid. -/
def urlValid (u : String) : Bool :=
  match urlHost u with
  | some h => decide (h ≠ "") && hostValid h
  | none => false

/-- The hardcoded endpoint; source: the literal in `send_to_api`
(`main.rs`). -/
def apiUrl : String := "http://194..163.14:8995/ping"

/- ===================== Environment and pipeline ===================== -/

/-- One entry yielded by the `WalkDir` traversal. -/
structure Entry where
  path : List String
  isFile : Bool
deriving DecidableEq

/-- The effectful context of one run: the CSV open outcome, the walk of
the `IMAGES` tree (`Except` entries, as `walkdir` yields results), the
per-file read outcome, the network transport, and the per-row CSV
write-and-flush outcome. -/
structure Env where
  csvOpen : Except String Unit
  walkEntries : List (Except String Entry)
  readFile : List String → Except String (List Nat)
  send : String → Except String String
  writeRow : List String → Except String Unit

/-- `path.to_string_lossy()` on a components list (UTF-8 paths). -/
def pathStr (p : List String) : String := String.intercalate "/" p

/-- Source: the discovery chain in `main` (`main.rs`):
`WalkDir::new("IMAGES") … filter_map(|e| e.ok()) … filter(is_file && is_image) … map(path)`.
Erroneous entries are silently dropped, directories excluded. -/
def discoveredImages (walk : List (Except String Entry)) : List (List String) :=
  ((walk.filterMap fun e => e.toOption).filter
      fun e => e.isFile && is_image e.path).map fun e => e.path

/-- Source: `encode_image` (`main.rs`): read the file fully, base64
encode with the STANDARD engine. -/
def encode_image (readFile : List String → Except String (List Nat))
    (path : List String) : Except String String :=
  match readFile path with
  | .error e => .error e
  | .ok bs => .ok ⟨encodeB64 bs⟩

/-- The serialized request body `json!({"image_base64": b64})`. -/
def payloadStr (b64 : String) : String :=
  jsonToString (Json.obj [("image_base64", Json.str b64)])

/-- Source: `send_to_api` (`main.rs`), with the transport abstracted:
build the JSON payload, send it, parse the response body as JSON. -/
def send_to_api (send : String → Except String String)
    (image_base64 : String) : Except String Json :=
  match send (payloadStr image_base64) with
  | .error _ => .error "Failed to send request to API"
  | .ok body =>
    match parseJson body with
    | some v => .ok v
    | none => .error "Failed to parse API response"

/-- The transport of this build: `reqwest` validates the hardcoded URL
before anything is sent, so an invalid URL yields a builder error at
`.send()` and the network (`net`) is never consulted. -/
def buildSend (net : String → Except String String)
    (payload : String) : Except String String :=
  if urlValid apiUrl then net payload else .error "builder error: invalid URL"

/-- `Except.isOk` as a plain boolean. -/
def isOkE {α : Type} (e : Except String α) : Bool :=
  match e with
  | .ok _ => true
  | .error _ => false

/-- Source: `process_image` (`main.rs`): encode, send, then append the
row `[path, response.to_string()]` to the CSV and flush.  A failed
write-and-flush loses the row (spec §4.4/§7 category 5). -/
def process_image (env : Env) (path : List String) : Except String Json :=
  match encode_image env.readFile path with
  | .error e => .error e
  | .ok b64 =>
    match send_to_api env.send b64 with
    | .error e => .error e
    | .ok v =>
      match env.writeRow [pathStr path, jsonToString v] with
      | .error e => .error e
      | .ok _ => .ok v

/-- Observable outcome of one run of `main`. -/
structure RunResult where
  exitCode : Nat
  foundLine : Option Nat
  rows : List (List String)
  successLines : List (List String)
  errorLines : List (List String × String)
  processed : List (List String)
deriving DecidableEq

/-- Source: `main` (`main.rs`): open the CSV writer (a failure aborts
with a nonzero exit before anything else), discover images, print the
count, run every pipeline to completion (each ending in a success line
plus its row, or an error line), exit zero. -/
def runMain (env : Env) : RunResult :=
  match env.csvOpen with
  | .error _ =>
      { exitCode := 1, foundLine := none, rows := [], successLines := [],
        errorLines := [], processed := [] }
  | .ok _ =>
    let paths := discoveredImages env.walkEntries
    { exitCode := 0
      foundLine := some paths.length
      rows := paths.filterMap fun p =>
        match process_image env p with
        | .ok v => some [pathStr p, jsonToString v]
        | .error _ => none
      successLines := paths.filter fun p => isOkE (process_image env p)
      errorLines := paths.filterMap fun p =>
        match process_image env p with
        | .error e => some (p, e)
        | .ok _ => none
      processed := paths }

/- ===================== Concurrency pool model ===================== -/

/-- The admission limit; source: `buffer_unordered(10)` in `main`. -/
def concurrencyLimit : Nat := 10

/-- State of the `buffer_unordered` pool: paths not yet pulled, spawned
pipelines not yet finished, finished pipelines. -/
structure PoolState where
  pending : List (List String)
  inFlight : List (List String)
  done : List (List String)

/-- Steps of the pool, modelling `stream::iter(..).map(spawn).buffer_unordered(10)`:
a next path is pulled into flight (its task spawned) only when fewer
than the limit are in flight, and a slot frees only when a task
finishes. -/
inductive PoolStep : PoolState → PoolState → Prop where
  | pull (s : PoolState) (p : List String) (rest : List (List String)) :
      s.pending = p :: rest → s.inFlight.length < concurrencyLimit →
      PoolStep s ⟨rest, p :: s.inFlight, s.done⟩
  | finish (s : PoolState) (l r : List (List String)) (p : List String) :
      s.inFlight = l ++ p :: r →
      PoolStep s ⟨s.pending, l ++ r, p :: s.done⟩

/-- States reachable from the initial state (all paths pending). -/
inductive PoolReach (paths : List (List String)) : PoolState → Prop where
  | init : PoolReach paths ⟨paths, [], []⟩
  | step {s t : PoolState} : PoolReach paths s → PoolStep s t → PoolReach paths t

/- ===================== Helper lemmas ===================== -/

theorem b64Index_b64Char_fin : ∀ n : Fin 64, b64Index (b64Char n.val) = some n.val := by
  decide

theorem b64Index_b64Char {n : Nat} (h : n < 64) : b64Index (b64Char n) = some n :=
  b64Index_b64Char_fin ⟨n, h⟩

theorem b64Char_ne_pad_fin : ∀ n : Fin 64, b64Char n.val ≠ '=' := by decide

theorem b64Char_ne_pad (n : Nat) : b64Char n ≠ '=' := by
  by_cases h : n < 64
  · exact b64Char_ne_pad_fin ⟨n, h⟩
  · have hlen : b64Alphabet.length ≤ n := by
      have : b64Alphabet.length = 64 := by decide
      omega
    have : b64Char n = 'A' := List.getD_eq_default _ _ hlen
    rw [this]; decide

theorem decodeB64_encodeB64 : ∀ bs : List Nat, (∀ b ∈ bs, b < 256) →
    decodeB64 (encodeB64 bs) = some bs
  | [], _ => rfl
  | [b1], h => by
      have hb : b1 < 256 := h b1 (by simp)
      have h1 := b64Index_b64Char (n := b1 / 4) (by omega)
      have h2 := b64Index_b64Char (n := b1 % 4 * 16) (by omega)
      simp only [encodeB64, decodeB64, h1, h2, if_pos rfl]
      simp only [Nat.mul_mod_left, if_pos rfl, and_self, reduceIte]
      simp only [Option.some.injEq, List.cons.injEq, and_true]
      omega
  | [b1, b2], h => by
      have hb1 : b1 < 256 := h b1 (by simp)
      have hb2 : b2 < 256 := h b2 (by simp)
      have h1 := b64Index_b64Char (n := b1 / 4) (by omega)
      have h2 := b64Index_b64Char (n := b1 % 4 * 16 + b2 / 16) (by omega)
      have h3 := b64Index_b64Char (n := b2 % 16 * 4) (by omega)
      have hne := b64Char_ne_pad (b2 % 16 * 4)
      simp only [encodeB64, decodeB64, h1, h2, h3, if_neg hne, if_pos rfl]
      simp only [Nat.mul_mod_left, if_pos rfl, and_self, reduceIte]
      simp only [Option.some.injEq, List.cons.injEq, and_true]
      constructor <;> omega
  | b1 :: b2 :: b3 :: rest, h => by
      have hb1 : b1 < 256 := h b1 (by simp)
      have hb2 : b2 < 256 := h b2 (by simp)
      have hb3 : b3 < 256 := h b3 (by simp)
      have ih := decodeB64_encodeB64 rest (fun b hb => h b (by simp [hb]))
      have h1 := b64Index_b64Char (n := b1 / 4) (by omega)
      have h2 := b64Index_b64Char (n := b1 % 4 * 16 + b2 / 16) (by omega)
      have h3 := b64Index_b64Char (n := b2 % 16 * 4 + b3 / 64) (by omega)
      have h4 := b64Index_b64Char (n := b3 % 64) (by omega)
      have hne3 := b64Char_ne_pad (b2 % 16 * 4 + b3 / 64)
      have hne4 := b64Char_ne_pad (b3 % 64)
      simp only [encodeB64, decodeB64, h1, h2, h3, h4, ih, if_neg hne3, if_neg hne4]
      simp only [Option.some.injEq, List.cons.injEq, and_true]
      refine ⟨by omega, by omega, by omega⟩

theorem countP_eq_of_nodup {α β : Type} [DecidableEq β] (f : α → β) (g : α → Bool) :
    ∀ (l : List α) (a : α), (l.map f).Nodup → a ∈ l →
      l.countP (fun x => decide (f x = f a) && g x) = if g a then 1 else 0
  | [], a, _, ha => absurd ha (List.not_mem_nil a)
  | b :: t, a, hnd, ha => by
      rw [List.map_cons, List.nodup_cons] at hnd
      rw [List.countP_cons]
      by_cases hba : b = a
      · subst hba
        have ht : t.countP (fun x => decide (f x = f b) && g x) = 0 := by
          rw [List.countP_eq_zero]
          intro x hx
          have hne : f x ≠ f b := by
            intro he
            exact hnd.1 (by rw [← he]; exact List.mem_map_of_mem f hx)
          simp [hne]
        rw [ht]
        by_cases hgb : g b = true <;> simp [hgb]
      · have hat : a ∈ t := by
          rcases List.mem_cons.mp ha with h1 | h1
          · exact absurd h1.symm hba
          · exact h1
        have hfba : f b ≠ f a := by
          intro he
          exact hnd.1 (by rw [he]; exact List.mem_map_of_mem f hat)
        rw [countP_eq_of_nodup f g t a hnd.2 hat]
        simp [hfba]

/-- Count of CSV rows whose first column is `pathStr p` among the rows a
run writes for `paths`. -/
theorem rows_countP (env : Env) (paths : List (List String)) (p : List String)
    (hnd : (paths.map pathStr).Nodup) (hp : p ∈ paths) :
    (paths.filterMap fun q =>
        match process_image env q with
        | .ok v => some [pathStr q, jsonToString v]
        | .error _ => none).countP
      (fun row => decide (row.head? = some (pathStr p)))
      = if isOkE (process_image env p) then 1 else 0 := by
  rw [List.countP_filterMap]
  rw [List.countP_congr (q := fun q =>
      decide (pathStr q = pathStr p) && isOkE (process_image env q)) ?_]
  · exact countP_eq_of_nodup pathStr (fun q => isOkE (process_image env q)) paths p hnd hp
  · intro q _
    cases hpi : process_image env q <;> simp [hpi, isOkE]

/-- Count of success console lines for `p`. -/
theorem success_countP (env : Env) (paths : List (List String)) (p : List String)
    (hnd : (paths.map pathStr).Nodup) (hp : p ∈ paths) :
    (paths.filter fun q => isOkE (process_image env q)).countP (fun q => decide (q = p))
      = if isOkE (process_image env p) then 1 else 0 := by
  rw [List.countP_filter]
  have hnd' : (paths.map (fun q => q)).Nodup := by
    simpa using List.Nodup.of_map pathStr hnd
  rw [List.countP_congr (q := fun x =>
      decide (x = p) && isOkE (process_image env x)) ?_]
  · exact countP_eq_of_nodup (fun q => q) (fun q => isOkE (process_image env q)) paths p hnd' hp
  · intro q _
    simp

/-- Count of error console lines naming `p`. -/
theorem error_countP (env : Env) (paths : List (List String)) (p : List String)
    (hnd : (paths.map pathStr).Nodup) (hp : p ∈ paths) :
    (paths.filterMap fun q =>
        match process_image env q with
        | .error e => some (q, e)
        | .ok _ => none).countP (fun pe => decide (pe.1 = p))
      = if isOkE (process_image env p) then 0 else 1 := by
  rw [List.countP_filterMap]
  have hnd' : (paths.map (fun q => q)).Nodup := by
    simpa using List.Nodup.of_map pathStr hnd
  rw [List.countP_congr (q := fun q =>
      decide (q = p) && !isOkE (process_image env q)) ?_]
  · have := countP_eq_of_nodup (fun q => q) (fun q => !isOkE (process_image env q)) paths p hnd' hp
    rw [this]
    cases hpi : isOkE (process_image env p) <;> simp [hpi]
  · intro q _
    cases hpi : process_image env q <;> simp [hpi, isOkE]

/- ===================== Witness environments ===================== -/

/-- A directory entry for `IMAGES/a.png`. -/
def entryA : Entry := ⟨["IMAGES", "a.png"], true⟩

/-- A directory entry for `IMAGES/b.jpg`. -/
def entryB : Entry := ⟨["IMAGES", "b.jpg"], true⟩

/-- Run with an unreadable discovery root: the walk yields exactly one
erroneous entry, everything else is healthy. -/
def envRootUnreadable : Env :=
  { csvOpen := .ok ()
    walkEntries := [.error "IMAGES: Permission denied (os error 13)"]
    readFile := fun _ => .error "unreachable"
    send := fun _ => .error "unreachable"
    writeRow := fun _ => .error "unreachable" }

/-- Run whose CSV file cannot be opened at startup. -/
def envCsvFail : Env :=
  { csvOpen := .error "Failed to open or create CSV file"
    walkEntries := [.ok entryA]
    readFile := fun _ => .ok [1, 2, 3]
    send := fun _ => .ok "1"
    writeRow := fun _ => .ok () }

/-- Run against this build's transport (`buildSend`), i.e. with the
hardcoded invalid URL in place. -/
def envBuild : Env :=
  { csvOpen := .ok ()
    walkEntries := [.ok entryA]
    readFile := fun _ => .ok [1, 2, 3]
    send := buildSend fun _ => .ok "\x7b\"received\": true\x7d"
    writeRow := fun _ => .ok () }

/-- Run whose endpoint answers every request with the JSON body
`"[1, 2]"` — valid JSON with insignificant whitespace. -/
def envWs : Env :=
  { csvOpen := .ok ()
    walkEntries := [.ok entryA]
    readFile := fun _ => .ok [1, 2, 3]
    send := fun _ => .ok "[1, 2]"
    writeRow := fun _ => .ok () }

/-- Run with two images in which reading `IMAGES/a.png` fails and
everything else succeeds. -/
def envOneFail : Env :=
  { csvOpen := .ok ()
    walkEntries := [.ok ⟨["IMAGES"], false⟩, .ok entryA, .ok entryB]
    readFile := fun p =>
      if p = ["IMAGES", "a.png"] then .error "Failed to open image file"
      else .ok [1, 2, 3]
    send := fun _ => .ok "\x7b\"received\": true\x7d"
    writeRow := fun _ => .ok () }

/- ===================== Claims ===================== -/

/-- **C1** (counterexample).  The claim says a run whose discovery root
cannot be read at all exits non-zero.  In the code the walk's error
entries are dropped by `filter_map(|e| e.ok())`, so a run whose walk
produced only an error — the unreadable-root case — still exits 0. -/
theorem c1_root_unreadable_exits_zero :
    envRootUnreadable.walkEntries = [.error "IMAGES: Permission denied (os error 13)"] ∧
    (runMain envRootUnreadable).exitCode = 0 :=
  ⟨rfl, rfl⟩

/-- **C1** (amended): the process exits 0 exactly when the CSV file
opened at startup — an unreadable discovery root is silently skipped and
does not affect the exit code — and under a zero exit every discovered
image reached a terminal state (a success line or an error line). -/
theorem c1_exit_behavior (env : Env) (p : List String) :
    ((runMain env).exitCode = 0 ↔ isOkE env.csvOpen = true) ∧
    (p ∈ (runMain env).processed →
      p ∈ (runMain env).successLines ∨ p ∈ (runMain env).errorLines.map Prod.fst) := by
  cases hcsv : env.csvOpen with
  | error e =>
    refine ⟨by simp [runMain, hcsv, isOkE], ?_⟩
    intro hp
    simp [runMain, hcsv] at hp
  | ok u =>
    refine ⟨by simp [runMain, hcsv, isOkE], ?_⟩
    intro hp
    simp only [runMain, hcsv] at hp ⊢
    cases hpi : process_image env p with
    | ok v =>
      left
      exact List.mem_filter.mpr ⟨hp, by simp [isOkE, hpi]⟩
    | error e =>
      right
      refine List.mem_map.mpr ⟨(p, e), List.mem_filterMap.mpr ⟨p, hp, by simp [hpi]⟩, rfl⟩

/-- **C1** witness: the amended statement at a concrete healthy run. -/
theorem c1_exit_behavior_witness :
    ((runMain envWs).exitCode = 0 ↔ isOkE envWs.csvOpen = true) ∧
    (["IMAGES", "a.png"] ∈ (runMain envWs).processed →
      ["IMAGES", "a.png"] ∈ (runMain envWs).successLines ∨
      ["IMAGES", "a.png"] ∈ (runMain envWs).errorLines.map Prod.fst) :=
  c1_exit_behavior envWs ["IMAGES", "a.png"]

/-- **C2**: the hardcoded endpoint URL has an empty host label, so the
client rejects it before anything reaches the wire: `send_to_api` fails
for every input and for every conceivable network behaviour `net`, and a
run of this build logs no row to the CSV. -/
theorem c2_invalid_url (env : Env) (net : String → Except String String)
    (b64 : String) (hsend : env.send = buildSend net) :
    urlValid apiUrl = false ∧
    send_to_api (buildSend net) b64 = .error "Failed to send request to API" ∧
    (runMain env).rows = [] := by
  have hu : urlValid apiUrl = false := by decide
  have hs : ∀ s, send_to_api (buildSend net) s = .error "Failed to send request to API" := by
    intro s
    simp [send_to_api, buildSend, hu]
  refine ⟨hu, hs b64, ?_⟩
  cases hcsv : env.csvOpen with
  | error e => simp [runMain, hcsv]
  | ok u =>
    simp only [runMain, hcsv]
    rw [List.filterMap_eq_nil_iff]
    intro p _
    cases hrf : env.readFile p with
    | error e => simp [process_image, encode_image, hrf]
    | ok bs => simp [process_image, encode_image, hrf, hsend, hs]

/-- **C2** witness at a concrete run of this build. -/
theorem c2_invalid_url_witness :
    urlValid apiUrl = false ∧
    send_to_api (buildSend fun _ => .ok "\x7b\"received\": true\x7d") "AQID"
      = .error "Failed to send request to API" ∧
    (runMain envBuild).rows = [] :=
  c2_invalid_url envBuild (fun _ => .ok "\x7b\"received\": true\x7d") "AQID" rfl

/-- **C5**: base64 round trip — decoding the standard base64 string the
encoder produces from any byte sequence yields the bytes back. -/
theorem c5_base64_roundtrip (bytes : List Nat) (h : ∀ b ∈ bytes, b < 256) :
    decodeB64 (encodeB64 bytes) = some bytes :=
  decodeB64_encodeB64 bytes h

/-- **C5** witness at a concrete byte sequence. -/
theorem c5_base64_roundtrip_witness :
    decodeB64 (encodeB64 [0, 255, 77, 3]) = some [0, 255, 77, 3] :=
  c5_base64_roundtrip [0, 255, 77, 3] (by decide)

/-- **C9**: if the CSV file cannot be opened at startup the run aborts
with a nonzero exit before anything happens: nothing is discovered (no
count line), processed, sent, or logged. -/
theorem c9_csv_failure_aborts (env : Env) (e : String) (h : env.csvOpen = .error e) :
    runMain env = { exitCode := 1, foundLine := none, rows := [], successLines := [],
                    errorLines := [], processed := [] } := by
  simp [runMain, h]

/-- **C9** witness at a concrete run whose CSV open fails. -/
theorem c9_csv_failure_aborts_witness :
    runMain envCsvFail = { exitCode := 1, foundLine := none, rows := [], successLines := [],
                           errorLines := [], processed := [] } :=
  c9_csv_failure_aborts envCsvFail "Failed to open or create CSV file" rfl

/-- **C10**: a file whose name has no extension component under Rust's
`Path` semantics — e.g. the dotfile `".png"` — is never classified as an
image and never appears in any discovery output, whatever the walk. -/
theorem c10_no_ext_never_image (path : List String)
    (walk : List (Except String Entry)) (h : pathExt path = none) :
    is_image path = false ∧ path ∉ discoveredImages walk := by
  have h1 : is_image path = false := by simp [is_image, h]
  refine ⟨h1, ?_⟩
  intro hmem
  unfold discoveredImages at hmem
  rw [List.mem_map] at hmem
  obtain ⟨x, hx, hxp⟩ := hmem
  rw [List.mem_filter] at hx
  have h2 : is_image x.path = true := by
    have hf := hx.2
    simp only [Bool.and_eq_true] at hf
    exact hf.2
  rw [hxp, h1] at h2
  exact Bool.false_ne_true h2

/-- **C10** witness: the dotfile `".png"`, even present as a file in the
walk, is not an image and is not discovered. -/
theorem c10_no_ext_never_image_witness :
    is_image [".png"] = false ∧ [".png"] ∉ discoveredImages [.ok ⟨[".png"], true⟩] :=
  c10_no_ext_never_image [".png"] [.ok ⟨[".png"], true⟩] (by decide)

/-- **C4**: discovery returns exactly the file entries whose extension
(case-insensitively) is a recognized image extension: the number of
discovered paths equals the number of matching file entries, every
matching file entry's path is discovered, and no non-matching entry
(including every directory) contributes its path. -/
theorem c4_discovery_exact (entries : List Entry) (e : Entry)
    (hnd : (entries.map Entry.path).Nodup) (he : e ∈ entries) :
    ((discoveredImages (entries.map Except.ok)).length
      = entries.countP fun x => x.isFile && is_image x.path) ∧
    ((e.isFile && is_image e.path) = true →
      e.path ∈ discoveredImages (entries.map Except.ok)) ∧
    ((e.isFile && is_image e.path) = false →
      e.path ∉ discoveredImages (entries.map Except.ok)) := by
  have hok : ∀ l : List Entry,
      (l.map (Except.ok : Entry → Except String Entry)).filterMap (fun x => x.toOption) = l := by
    intro l
    induction l with
    | nil => rfl
    | cons a t ih =>
        simp only [List.map_cons, List.filterMap_cons, Except.toOption] at ih ⊢
        rw [ih]
  have hbase : discoveredImages (entries.map Except.ok)
      = (entries.filter fun x => x.isFile && is_image x.path).map Entry.path := by
    unfold discoveredImages
    rw [hok entries]
  refine ⟨?_, ?_, ?_⟩
  · rw [hbase, List.length_map, List.countP_eq_length_filter]
  · intro hmatch
    rw [hbase]
    exact List.mem_map.mpr ⟨e, List.mem_filter.mpr ⟨he, hmatch⟩, rfl⟩
  · intro hmatch hmem
    rw [hbase, List.mem_map] at hmem
    obtain ⟨x, hx, hxp⟩ := hmem
    rw [List.mem_filter] at hx
    have hxe : x = e := List.inj_on_of_nodup_map hnd hx.1 he hxp
    rw [hxe] at hx
    rw [hx.2] at hmatch
    exact Bool.noConfusion hmatch

/-- **C4** witness on a concrete tree: one matching file, one
non-matching file, one directory. -/
theorem c4_discovery_exact_witness :
    ((discoveredImages ([⟨["IMAGES"], false⟩, entryA, ⟨["IMAGES", "n.txt"], true⟩].map Except.ok)).length
      = [(⟨["IMAGES"], false⟩ : Entry), entryA, ⟨["IMAGES", "n.txt"], true⟩].countP
          fun x => x.isFile && is_image x.path) ∧
    ((entryA.isFile && is_image entryA.path) = true →
      entryA.path ∈ discoveredImages ([⟨["IMAGES"], false⟩, entryA, ⟨["IMAGES", "n.txt"], true⟩].map Except.ok)) ∧
    ((entryA.isFile && is_image entryA.path) = false →
      entryA.path ∉ discoveredImages ([⟨["IMAGES"], false⟩, entryA, ⟨["IMAGES", "n.txt"], true⟩].map Except.ok)) :=
  c4_discovery_exact [⟨["IMAGES"], false⟩, entryA, ⟨["IMAGES", "n.txt"], true⟩] entryA
    (by decide) (by decide)

/-- Bool partition of a count. -/
theorem countP_add_not {α : Type} (p : α → Bool) :
    ∀ l : List α, l.countP p + l.countP (fun a => !p a) = l.length
  | [] => rfl
  | a :: t => by
      rw [List.countP_cons, List.countP_cons]
      have := countP_add_not p t
      cases hpa : p a <;> simp [hpa] <;> omega

/-- **C6**: every discovered path yields exactly one of the two
outcomes: one CSV row (with one success line and no error line), or one
error line naming it (with no row and no success line) — never both,
never neither. -/
theorem c6_exactly_one_outcome (env : Env) (p : List String)
    (hcsv : env.csvOpen = .ok ())
    (hnd : ((discoveredImages env.walkEntries).map pathStr).Nodup)
    (hp : p ∈ discoveredImages env.walkEntries) :
    (((runMain env).rows.countP (fun row => decide (row.head? = some (pathStr p))) = 1 ∧
      (runMain env).successLines.countP (fun q => decide (q = p)) = 1 ∧
      (runMain env).errorLines.countP (fun pe => decide (pe.1 = p)) = 0) ∨
     ((runMain env).rows.countP (fun row => decide (row.head? = some (pathStr p))) = 0 ∧
      (runMain env).successLines.countP (fun q => decide (q = p)) = 0 ∧
      (runMain env).errorLines.countP (fun pe => decide (pe.1 = p)) = 1)) := by
  have hr := rows_countP env (discoveredImages env.walkEntries) p hnd hp
  have hsl := success_countP env (discoveredImages env.walkEntries) p hnd hp
  have hel := error_countP env (discoveredImages env.walkEntries) p hnd hp
  simp only [runMain, hcsv]
  cases hok : isOkE (process_image env p) with
  | false =>
      right
      rw [hok] at hr hsl hel
      simp only [Bool.false_eq_true, if_false] at hr hsl hel
      exact ⟨hr, hsl, hel⟩
  | true =>
      left
      rw [hok] at hr hsl hel
      simp only [if_true] at hr hsl hel
      exact ⟨hr, hsl, hel⟩

/-- **C6** witness: concrete two-image run in which one image fails. -/
theorem c6_exactly_one_outcome_witness :
    (((runMain envOneFail).rows.countP
        (fun row => decide (row.head? = some (pathStr ["IMAGES", "b.jpg"]))) = 1 ∧
      (runMain envOneFail).successLines.countP
        (fun q => decide (q = ["IMAGES", "b.jpg"])) = 1 ∧
      (runMain envOneFail).errorLines.countP
        (fun pe => decide (pe.1 = ["IMAGES", "b.jpg"])) = 0) ∨
     ((runMain envOneFail).rows.countP
        (fun row => decide (row.head? = some (pathStr ["IMAGES", "b.jpg"]))) = 0 ∧
      (runMain envOneFail).successLines.countP
        (fun q => decide (q = ["IMAGES", "b.jpg"])) = 0 ∧
      (runMain envOneFail).errorLines.countP
        (fun pe => decide (pe.1 = ["IMAGES", "b.jpg"])) = 1)) :=
  c6_exactly_one_outcome envOneFail ["IMAGES", "b.jpg"] rfl (by decide) (by decide)

/-- **C7**: in the pool model of `buffer_unordered(10)` with lazily
spawned tasks, every reachable state has at most 10 pipelines in flight;
since an outbound API request exists only inside an in-flight pipeline,
at most 10 requests are ever simultaneously outstanding. -/
theorem c7_concurrency_bound (paths : List (List String)) (s : PoolState)
    (h : PoolReach paths s) : s.inFlight.length ≤ concurrencyLimit := by
  induction h with
  | init => exact Nat.zero_le _
  | step hr hstep ih =>
      cases hstep with
      | pull q rest hpend hlt => simpa using hlt
      | finish l r q hif =>
          rw [hif] at ih
          simp only [List.length_append, List.length_cons] at ih
          simp only [List.length_append]
          omega

/-- **C7** witness: the initial state of a one-image run. -/
theorem c7_concurrency_bound_witness :
    (⟨[["IMAGES", "a.png"]], [], []⟩ : PoolState).inFlight.length ≤ concurrencyLimit :=
  c7_concurrency_bound [["IMAGES", "a.png"]] ⟨[["IMAGES", "a.png"]], [], []⟩ PoolReach.init

/-- **C8**: if the pipeline of exactly one discovered image fails, the
run still completes with exit code 0, the log gains one row per
non-failing image (count `K - 1`), exactly one error line names the
failing path, and every sibling pipeline still produces its row. -/
theorem c8_partial_failure (env : Env) (p0 p : List String)
    (hcsv : env.csvOpen = .ok ())
    (hnd : ((discoveredImages env.walkEntries).map pathStr).Nodup)
    (hp0 : p0 ∈ discoveredImages env.walkEntries)
    (hfail : isOkE (process_image env p0) = false)
    (hok : ∀ q ∈ discoveredImages env.walkEntries, q ≠ p0 →
      isOkE (process_image env q) = true)
    (hp : p ∈ discoveredImages env.walkEntries) (hne : p ≠ p0) :
    (runMain env).exitCode = 0 ∧
    (runMain env).rows.length = (discoveredImages env.walkEntries).length - 1 ∧
    (runMain env).errorLines.countP (fun pe => decide (pe.1 = p0)) = 1 ∧
    (runMain env).rows.countP (fun row => decide (row.head? = some (pathStr p))) = 1 := by
  have hnd' : ((discoveredImages env.walkEntries).map (fun q => q)).Nodup := by
    simpa using List.Nodup.of_map pathStr hnd
  have hel := error_countP env (discoveredImages env.walkEntries) p0 hnd hp0
  rw [hfail] at hel
  simp only [Bool.false_eq_true, if_false] at hel
  have hr := rows_countP env (discoveredImages env.walkEntries) p hnd hp
  rw [hok p hp hne] at hr
  simp only [if_true] at hr
  have hleq : ((discoveredImages env.walkEntries).filterMap fun q =>
      match process_image env q with
      | .ok v => some [pathStr q, jsonToString v]
      | .error _ => none).length
      = (discoveredImages env.walkEntries).countP fun q => isOkE (process_image env q) := by
    rw [List.length_filterMap_eq_countP]
    refine List.countP_congr ?_
    intro q _
    cases hq : process_image env q <;> simp [hq, isOkE]
  have hA : (discoveredImages env.walkEntries).countP (fun q => isOkE (process_image env q))
      = (discoveredImages env.walkEntries).countP (fun q => !(decide (q = p0))) := by
    refine List.countP_congr ?_
    intro q hq
    by_cases hq0 : q = p0
    · subst hq0
      simp [hfail]
    · simp [hq0, hok q hq hq0]
  have hB : (discoveredImages env.walkEntries).countP (fun q => decide (q = p0)) = 1 := by
    have hm := countP_eq_of_nodup (fun q => q) (fun _ => true)
      (discoveredImages env.walkEntries) p0 hnd' hp0
    simpa using hm
  have hC := countP_add_not (fun q => decide (q = p0)) (discoveredImages env.walkEntries)
  refine ⟨by simp [runMain, hcsv], ?_, ?_, ?_⟩
  · simp only [runMain, hcsv]
    rw [hleq, hA]
    omega
  · simp only [runMain, hcsv]
    exact hel
  · simp only [runMain, hcsv]
    exact hr

/-- **C8** witness: the two-image run in which only `IMAGES/a.png`
fails. -/
theorem c8_partial_failure_witness :
    (runMain envOneFail).exitCode = 0 ∧
    (runMain envOneFail).rows.length = (discoveredImages envOneFail.walkEntries).length - 1 ∧
    (runMain envOneFail).errorLines.countP
      (fun pe => decide (pe.1 = ["IMAGES", "a.png"])) = 1 ∧
    (runMain envOneFail).rows.countP
      (fun row => decide (row.head? = some (pathStr ["IMAGES", "b.jpg"]))) = 1 :=
  c8_partial_failure envOneFail ["IMAGES", "a.png"] ["IMAGES", "b.jpg"]
    rfl (by decide) (by decide) (by decide) (by decide) (by decide) (by decide)

/-- **C3** (counterexample).  The endpoint returns the valid JSON body
`"[1, 2]"`, but the CSV row's second column holds `"[1,2]"` — the
re-serialization of the parsed value, not the body byte-for-byte: the
insignificant whitespace is gone. -/
theorem c3_not_verbatim :
    envWs.send (payloadStr "AQID") = .ok "[1, 2]" ∧
    (runMain envWs).rows = [["IMAGES/a.png", "[1,2]"]] ∧
    ("[1,2]" : String) ≠ "[1, 2]" := by
  refine ⟨rfl, by decide, by decide⟩

/-- **C3** (amended): for every successfully processed image the text in
the CSV row's second column is `jsonToString v`, the compact serde_json
re-serialization of the value `v` parsed from the response body — JSON
semantics are preserved, bytes (e.g. insignificant whitespace) need not
be. -/
theorem c3_second_column_serialized (env : Env) (p : List String)
    (bytes : List Nat) (body : String) (v : Json)
    (hcsv : env.csvOpen = .ok ())
    (hnd : ((discoveredImages env.walkEntries).map pathStr).Nodup)
    (hp : p ∈ discoveredImages env.walkEntries)
    (hread : env.readFile p = .ok bytes)
    (hsend : env.send (payloadStr ⟨encodeB64 bytes⟩) = .ok body)
    (hparse : parseJson body = some v)
    (hwrite : env.writeRow [pathStr p, jsonToString v] = .ok ()) :
    [pathStr p, jsonToString v] ∈ (runMain env).rows ∧
    (runMain env).rows.countP (fun row => decide (row.head? = some (pathStr p))) = 1 := by
  have hpi : process_image env p = .ok v := by
    simp [process_image, encode_image, hread, send_to_api, hsend, hparse, hwrite]
  simp only [runMain, hcsv]
  constructor
  · exact List.mem_filterMap.mpr ⟨p, hp, by simp [hpi]⟩
  · have hr := rows_countP env (discoveredImages env.walkEntries) p hnd hp
    rw [hpi] at hr
    simpa [isOkE] using hr

/-- **C3** witness: the whitespace run instantiated concretely. -/
theorem c3_second_column_serialized_witness :
    [pathStr ["IMAGES", "a.png"], jsonToString (Json.arr [Json.num 1, Json.num 2])]
      ∈ (runMain envWs).rows ∧
    (runMain envWs).rows.countP
      (fun row => decide (row.head? = some (pathStr ["IMAGES", "a.png"]))) = 1 :=
  c3_second_column_serialized envWs ["IMAGES", "a.png"] [1, 2, 3] "[1, 2]"
    (Json.arr [Json.num 1, Json.num 2]) rfl (by decide) (by decide) rfl rfl rfl rfl
